import Mathlib

set_option maxHeartbeats 1000000

/-!
Shallow embedding of `paddlenlp/datasets/dataset.py`:
`MapDataset`, `IterDataset`, `DatasetBuilder.read` / `read_datasets`.
Python records are modelled by the dynamic value type `PyVal`; a record
(dict) is an association list `Example`.  User-supplied filter predicates
on the streaming dataset are modelled by indices into an environment
`env : Nat → PyVal → Bool`, so that the list of registered predicates can
itself be passed around as a Python value (`PyVal.list` of `PyVal.func`),
exactly as `IterDataset.__iter__` does.
-/

/-- A dynamic Python value: `None`, bool, int, str, list, or an opaque
function object (identified by an index into a predicate environment). -/
inductive PyVal : Type where
  | none : PyVal
  | bool : Bool → PyVal
  | int : Int → PyVal
  | str : String → PyVal
  | list : List PyVal → PyVal
  | func : Nat → PyVal
  deriving Repr

/-- Python truthiness (`if value:`): `None`, `False`, `0`, `""`, `[]` are
falsy; function objects are truthy. -/
def pyTruthy : PyVal → Bool
  | PyVal.none => false
  | PyVal.bool b => b
  | PyVal.int n => decide (n ≠ 0)
  | PyVal.str s => decide (s ≠ "")
  | PyVal.list l => !l.isEmpty
  | PyVal.func _ => true

mutual

/-- Structural equality on `PyVal` (Python `==` on these value forms). -/
def PyVal.beq : PyVal → PyVal → Bool
  | PyVal.none, PyVal.none => true
  | PyVal.bool a, PyVal.bool b => a == b
  | PyVal.int a, PyVal.int b => a == b
  | PyVal.str a, PyVal.str b => a == b
  | PyVal.func a, PyVal.func b => a == b
  | PyVal.list a, PyVal.list b => PyVal.listBeq a b
  | _, _ => false

/-- Elementwise equality of `PyVal` lists. -/
def PyVal.listBeq : List PyVal → List PyVal → Bool
  | [], [] => true
  | a :: as, b :: bs => PyVal.beq a b && PyVal.listBeq as bs
  | _, _ => false

end

instance : BEq PyVal := ⟨PyVal.beq⟩

/-- A record: a Python dict from field name to value, as an ordered
association list (Python dicts preserve insertion order). -/
abbrev Example := List (String × PyVal)

/-- Python list indexing `l[idx]`: a negative index counts from the end
(`l[len(l) + idx]`); out of range raises `IndexError`, modelled as `none`. -/
def pyGet {α : Type u} (l : List α) (idx : Int) : Option α :=
  let j : Int := if idx < 0 then idx + l.length else idx
  if 0 ≤ j then l.get? j.toNat else Option.none

/-- `MapDataset`: the eager, indexable dataset.  `data` is the collection
passed to `__init__`; every operation works on `new_data`.  The transform
pipeline keeps the source's spelling `_transform_pipline`. -/
structure MapDataset (α : Type u) : Type u where
  data : List α
  new_data : List α
  transform_pipline : List (α → α)
  label_list : Option (List PyVal)
  vocab_info : PyVal

/-- `MapDataset.__init__(data, label_list=…, vocab_info=…)`. -/
def MapDataset.init {α : Type u} (d : List α) (ll : Option (List PyVal))
    (v : PyVal) : MapDataset α :=
  { data := d, new_data := d, transform_pipline := [], label_list := ll,
    vocab_info := v }

/-- `MapDataset._transform`: fold the transform pipeline left to right. -/
def MapDataset.transformApply {α : Type u} (ds : MapDataset α) (x : α) : α :=
  ds.transform_pipline.foldl (fun d fn => fn d) x

/-- `MapDataset.__getitem__(idx)`: transform the record at `idx` when the
pipeline is non-empty, else return it raw; Python list indexing. -/
def MapDataset.getitem {α : Type u} (ds : MapDataset α) (idx : Int) :
    Option α :=
  if ds.transform_pipline.isEmpty then pyGet ds.new_data idx
  else (pyGet ds.new_data idx).map ds.transformApply

/-- `MapDataset.__len__`. -/
def MapDataset.len {α : Type u} (ds : MapDataset α) : Nat :=
  ds.new_data.length

/-- `MapDataset._filter(fn)`: the comprehension
`[new_data[idx] for idx in range(len(new_data)) if fn(new_data[idx])]`,
i.e. keep in order the records satisfying `fn`. -/
def MapDataset.filterImpl {α : Type u} (ds : MapDataset α) (fn : α → Bool) :
    MapDataset α :=
  { ds with new_data := ds.new_data.filter fn }

/-- `MapDataset.shard(num_shards, index, contiguous)`.  Contiguous: the
slice `new_data[start:end]` with `div = len // num_shards`,
`mod = len % num_shards`, `start = div*index + min(index, mod)`,
`end = start + div + (1 if index < mod else 0)`.  Striped: the
comprehension keeping positions `idx` with `idx % num_shards == index`. -/
def MapDataset.shard {α : Type u} (ds : MapDataset α) (num_shards index : Nat)
    (contiguous : Bool) : MapDataset α :=
  if contiguous then
    let divi := ds.len / num_shards
    let modi := ds.len % num_shards
    let start := divi * index + min index modi
    let stop := start + divi + (if index < modi then 1 else 0)
    { ds with new_data := (ds.new_data.take stop).drop start }
  else
    let striped :=
      (ds.new_data.enum.filter (fun p => p.1 % num_shards == index)).map
        Prod.snd
    { ds with new_data := striped }

/-- `MapDataset.filter(fn, num_workers)`: with `num_workers == 0`, the
sequential `_filter`; with `num_workers > 0`, each worker rank shards a
copy of the dataset contiguously, filters its shard, and the results are
concatenated in rank order `0..num_workers-1` into `new_data`. -/
def MapDataset.filter {α : Type u} (ds : MapDataset α) (fn : α → Bool)
    (num_workers : Nat) : MapDataset α :=
  if 0 < num_workers then
    let joined :=
      (List.range num_workers).flatMap
        (fun rank => ((ds.shard num_workers rank true).filterImpl fn).new_data)
    { ds with new_data := joined }
  else ds.filterImpl fn

/-- `MapDataset._map(fn, lazy, batched)`. -/
def MapDataset.mapImpl {α : Type u} (ds : MapDataset α) (fn : α → α)
    (lazy : Bool) : MapDataset α :=
  if lazy then { ds with transform_pipline := ds.transform_pipline ++ [fn] }
  else { ds with new_data := ds.new_data.map fn }

/-- `IterDataset`: the streaming dataset.  `data` is the sequence of
records the wrapped source yields; the filter pipeline holds indices of
user predicates (resolved through an environment `Nat → PyVal → Bool`,
since Python predicates are dynamically typed); `shard_filter` is
`_shard_filter`, initially constantly true. -/
structure IterDataset (α : Type u) : Type u where
  data : List α
  transform_pipline : List (α → α)
  filter_pipline : List Nat
  shard_filter : Nat → Bool
  label_list : Option (List PyVal)
  vocab_info : PyVal

/-- `IterDataset.__init__(data, label_list=…, vocab_info=…)`:
`_shard_filter` is the method returning `True`. -/
def IterDataset.init {α : Type u} (d : List α) (ll : Option (List PyVal))
    (v : PyVal) : IterDataset α :=
  { data := d, transform_pipline := [], filter_pipline := [],
    shard_filter := fun _ => true, label_list := ll, vocab_info := v }

/-- `IterDataset._transform`: fold the transform pipeline left to right. -/
def IterDataset.transformApply {α : Type u} (ds : IterDataset α) (x : α) :
    α :=
  ds.transform_pipline.foldl (fun d fn => fn d) x

/-- `yield self._transform(example) if self._transform_pipline else example`. -/
def IterDataset.transformOne {α : Type u} (ds : IterDataset α) (x : α) : α :=
  if ds.transform_pipline.isEmpty then x else ds.transformApply x

/-- `IterDataset._filter(data)`: every registered predicate must return
true on the argument `data` (short-circuit on the first false). -/
def IterDataset.filterGate {α : Type u} (env : Nat → PyVal → Bool)
    (ds : IterDataset α) (d : PyVal) : Bool :=
  ds.filter_pipline.all (fun i => env i d)

/-- The value `self._filter_pipline` as the Python object that
`__iter__` passes to `_filter`: a list of function objects. -/
def IterDataset.piplineVal {α : Type u} (ds : IterDataset α) : PyVal :=
  PyVal.list (ds.filter_pipline.map PyVal.func)

/-- The loop body gate in `IterDataset.__iter__`:
`(not self._filter_pipline or self._filter(self._filter_pipline)) and
self._shard_filter(num_samples)`.  Note the source passes the filter
pipeline itself — not the record — to `_filter`. -/
def IterDataset.iterGate {α : Type u} (env : Nat → PyVal → Bool)
    (ds : IterDataset α) (num_samples : Nat) : Bool :=
  (ds.filter_pipline.isEmpty ||
      ds.filterGate env ds.piplineVal) && ds.shard_filter num_samples

/-- The loop of `IterDataset.__iter__` over the remaining source records,
with `num_samples` the zero-based count of records seen so far;
`num_samples` is incremented for every source record, yielded or not. -/
def IterDataset.iterFrom {α : Type u} (env : Nat → PyVal → Bool)
    (ds : IterDataset α) : List α → Nat → List α
  | [], _ => []
  | x :: xs, num_samples =>
    if ds.iterGate env num_samples then
      ds.transformOne x :: ds.iterFrom env xs (num_samples + 1)
    else ds.iterFrom env xs (num_samples + 1)

/-- `IterDataset.__iter__`: the sequence of yielded records. -/
def IterDataset.iter {α : Type u} (env : Nat → PyVal → Bool)
    (ds : IterDataset α) : List α :=
  ds.iterFrom env ds.data 0

/-- `IterDataset.filter(fn)`: append the predicate (index) to
`_filter_pipline`. -/
def IterDataset.filter {α : Type u} (ds : IterDataset α) (i : Nat) :
    IterDataset α :=
  { ds with filter_pipline := ds.filter_pipline ++ [i] }

/-- The `sharder(num_shards, index, num_samples)` closure installed by
`IterDataset.shard`. -/
def sharder (num_shards index num_samples : Nat) : Bool :=
  num_samples % num_shards == index

/-- `IterDataset.shard(num_shards, index)`: replace `_shard_filter` by
`partial(sharder, num_shards, index)`. -/
def IterDataset.shard {α : Type u} (ds : IterDataset α)
    (num_shards index : Nat) : IterDataset α :=
  { ds with shard_filter := sharder num_shards index }

/-- `IterDataset.map(fn)`: append to the transform pipeline. -/
def IterDataset.map {α : Type u} (ds : IterDataset α) (fn : α → α) :
    IterDataset α :=
  { ds with transform_pipline := ds.transform_pipline ++ [fn] }

/-! ### `DatasetBuilder.read` -/

/-- Label-column detection (`'labels' in example.keys()` preferred, else
`'label'`, else none). -/
def detectLabelCol (e : Example) : Option String :=
  if (e.lookup "labels").isSome then some "labels"
  else if (e.lookup "label").isSome then some "label" else Option.none

/-- Look a label value up in `label_dict`, the dict built by
`for i, label in enumerate(label_list): label_dict[label] = i`
(a later duplicate key overwrites an earlier one). -/
def labelIndex (labelList : List PyVal) (v : PyVal) : Option Nat :=
  labelList.enum.foldl
    (fun acc p => if p.2 == v then some p.1 else acc) Option.none

/-- Map one element of a label sequence to its index, `KeyError` when the
label is absent from the label list. -/
def mapLabelElem (labelList : List PyVal) (x : PyVal) : Except String PyVal :=
  match labelIndex labelList x with
  | some i => Except.ok (PyVal.int i)
  | Option.none => Except.error "KeyError"

/-- Map a list-valued label field element-wise. -/
def mapLabelList (labelList : List PyVal) :
    List PyVal → Except String (List PyVal)
  | [] => Except.ok []
  | x :: xs => do
    let y ← mapLabelElem labelList x
    let ys ← mapLabelList labelList xs
    Except.ok (y :: ys)

/-- `label_dict` conversion of one label field value: a list is mapped
element-wise in place, any other value is mapped as a scalar. -/
def mapLabelValue (labelList : List PyVal) (v : PyVal) :
    Except String PyVal :=
  match v with
  | PyVal.list xs => (mapLabelList labelList xs).map PyVal.list
  | x => mapLabelElem labelList x

/-- Dict assignment `example[k] = v` for a key already present. -/
def exSet (e : Example) (k : String) (v : PyVal) : Example :=
  e.map (fun p => if p.1 = k then (k, v) else p)

/-- One iteration of the lazy `generate_examples` generator body: detect
the label column of this record, and when a label list is supplied and
the record's label value is truthy, convert it through `label_dict`. -/
def processExampleLazy (labelList : Option (List PyVal)) (e : Example) :
    Except String Example :=
  match labelList with
  | Option.none => Except.ok e
  | some ll =>
    match detectLabelCol e with
    | Option.none => Except.ok e
    | some k =>
      let v := ((e.lookup k).getD PyVal.none)
      if pyTruthy v then (mapLabelValue ll v).map (exSet e k)
      else Except.ok e

/-- The lazy `generate_examples` generator: each source record processed
in turn (an error raised at some record aborts the traversal there). -/
def generateExamples (labelList : Option (List PyVal)) :
    List Example → Except String (List Example)
  | [] => Except.ok []
  | e :: es => do
    let e2 ← processExampleLazy labelList e
    let rest ← generateExamples labelList es
    Except.ok (e2 :: rest)

/-- `DatasetBuilder.read` with `lazy=True`: wrap the generator in an
`IterDataset` carrying `label_list` and `vocab_info`. -/
def readLazy (labelList : Option (List PyVal)) (vocab : PyVal)
    (source : List Example) : Except String (IterDataset Example) :=
  (generateExamples labelList source).map
    (fun exs => IterDataset.init exs labelList vocab)

/-- The eager label-conversion loop over all materialized examples, with
the label column name `k` fixed from the first record: each record's
`examples[idx][label_col]` is read (`KeyError` when the key is absent)
and rewritten through `label_dict`. -/
def mapExamplesEager (ll : List PyVal) (k : String) :
    List Example → Except String (List Example)
  | [] => Except.ok []
  | e :: es =>
    match e.lookup k with
    | Option.none => Except.error "KeyError"
    | some v => do
      let v2 ← mapLabelValue ll v
      let rest ← mapExamplesEager ll k es
      Except.ok (exSet e k v2 :: rest)

/-- `DatasetBuilder.read` with `lazy=False`: materialize the examples,
raise on an empty read, detect the label column from the first record
only, and convert labels only when the first record's label value is
truthy; wrap in a `MapDataset`. -/
def readEager (labelList : Option (List PyVal)) (vocab : PyVal)
    (source : List Example) : Except String (MapDataset Example) :=
  match source with
  | [] => Except.error "EmptyDataset"
  | e0 :: _ =>
    match labelList, detectLabelCol e0 with
    | some ll, some k =>
      if pyTruthy ((e0.lookup k).getD PyVal.none) then
        (mapExamplesEager ll k source).map
          (fun exs => MapDataset.init exs (some ll) vocab)
      else Except.ok (MapDataset.init source labelList vocab)
    | _, _ => Except.ok (MapDataset.init source labelList vocab)

/-! ### `DatasetBuilder.read_datasets` -/

/-- The `data_files` argument: a path, a list/tuple of paths, or a
mapping from split name to path. -/
inductive DataFilesArg : Type where
  | path : String → DataFilesArg
  | paths : List String → DataFilesArg
  | dict : List (String × String) → DataFilesArg

/-- The `splits` argument: a split name or a list/tuple of split names. -/
inductive SplitsArg : Type where
  | split : String → SplitsArg
  | splits : List String → SplitsArg

/-- Python truthiness of the `data_files` argument. -/
def dfTruthy : Option DataFilesArg → Bool
  | Option.none => false
  | some (DataFilesArg.path s) => decide (s ≠ "")
  | some (DataFilesArg.paths l) => !l.isEmpty
  | some (DataFilesArg.dict d) => !d.isEmpty

/-- Python truthiness of the `splits` argument. -/
def spTruthy : Option SplitsArg → Bool
  | Option.none => false
  | some (SplitsArg.split s) => decide (s ≠ "")
  | some (SplitsArg.splits l) => !l.isEmpty

/-- The result of `read_datasets`: `datasets if len(datasets) > 1 else
datasets[0]`. -/
inductive ReadResult (D : Type u) : Type u where
  | one : D → ReadResult D
  | many : List D → ReadResult D

/-- The ordered list of datasets `read_datasets` accumulates:
`data_files`-derived first (a single path or each listed path read with
split `'train'`; a mapping read per `(split, filename)` item in order),
then `splits`-derived (each split resolved through `_get_data`). -/
def datasetsOf {D : Type u} (read : String → String → D)
    (getData : String → String) (splits : Option SplitsArg)
    (dataFiles : Option DataFilesArg) : List D :=
  (if dfTruthy dataFiles then
    match dataFiles with
    | some (DataFilesArg.path s) => [read s "train"]
    | some (DataFilesArg.paths l) => l.map (fun fname => read fname "train")
    | some (DataFilesArg.dict d) => d.map (fun p => read p.2 p.1)
    | Option.none => []
  else []) ++
  (if spTruthy splits then
    match splits with
    | some (SplitsArg.split s) => [read (getData s) s]
    | some (SplitsArg.splits l) => l.map (fun s => read (getData s) s)
    | Option.none => []
  else [])

/-- `DatasetBuilder.read_datasets(splits, data_files)`: assert that at
least one argument is truthy, collect the datasets in declaration order,
and return the single dataset when exactly one was produced, else the
list (an empty list would fault on `datasets[0]`). -/
def readDatasets {D : Type u} (read : String → String → D)
    (getData : String → String) (splits : Option SplitsArg)
    (dataFiles : Option DataFilesArg) : Except String (ReadResult D) :=
  if spTruthy splits || dfTruthy dataFiles then
    let ds := datasetsOf read getData splits dataFiles
    if 1 < ds.length then Except.ok (ReadResult.many ds)
    else
      match ds with
      | [] => Except.error "IndexError"
      | d :: _ => Except.ok (ReadResult.one d)
  else Except.error "InvalidArgument"

/-- The offset formula of `MapDataset.shard(contiguous=True)`:
`div*index + min(index, mod)` with `div = L // k`, `mod = L % k`; shard
`i` is the slice from `contigBound L k i` to `contigBound L k (i+1)`. -/
def contigBound (L k i : Nat) : Nat :=
  (L / k) * i + min i (L % k)

/-! ### General list lemmas -/

theorem flatMap_congr_of_mem {α : Type u} {β : Type v} {l : List α}
    {f g : α → List β} (h : ∀ a ∈ l, f a = g a) :
    l.flatMap f = l.flatMap g := by
  induction l with
  | nil => rfl
  | cons x xs ih =>
    simp only [List.flatMap_cons]
    rw [h x (by simp), ih (fun a ha => h a (by simp [ha]))]

theorem filter_flatMap_comm {α : Type u} {β : Type v} (l : List β)
    (g : β → List α) (p : α → Bool) :
    (l.flatMap g).filter p = l.flatMap (fun b => (g b).filter p) := by
  induction l with
  | nil => rfl
  | cons x xs ih =>
    simp only [List.flatMap_cons, List.filter_append, ih]

theorem slices_concat {α : Type u} (l : List α) (s : Nat → Nat)
    (mono : ∀ i, s i ≤ s (i + 1)) (h0 : s 0 = 0) :
    ∀ n, (List.range n).flatMap (fun i => (l.take (s (i + 1))).drop (s i)) =
      l.take (s n) := by
  intro n
  induction n with
  | zero => simp [h0]
  | succ m ih =>
    rw [List.range_succ, List.flatMap_append, ih]
    simp only [List.flatMap_cons, List.flatMap_nil, List.append_nil]
    have h1 : (l.take (s (m + 1))).take (s m) = l.take (s m) := by
      rw [List.take_take, inf_eq_left.mpr (mono m)]
    rw [← h1, List.take_append_drop]

theorem stripes_perm {β : Type v} (k : Nat) (f : β → Nat) :
    ∀ e : List β, (∀ x ∈ e, f x < k) →
      ((List.range k).flatMap (fun i => e.filter (fun x => f x == i))).Perm
        e := by
  induction k with
  | zero =>
    intro e he
    match e with
    | [] => simp
    | x :: xs => exact absurd (he x (by simp)) (by omega)
  | succ m ih =>
    intro e he
    rw [List.range_succ, List.flatMap_append]
    simp only [List.flatMap_cons, List.flatMap_nil, List.append_nil]
    have hsub : ∀ i ∈ List.range m,
        e.filter (fun x => f x == i) =
          (e.filter (fun x => !(f x == m))).filter (fun x => f x == i) := by
      intro i hi
      have him : i < m := List.mem_range.mp hi
      rw [List.filter_filter]
      refine (List.filter_congr ?_).symm
      intro x hx
      cases hfx : (f x == i) with
      | false => simp [hfx]
      | true =>
        have hfi : f x = i := eq_of_beq hfx
        have hne : (f x == m) = false := by
          apply beq_eq_false_iff_ne.mpr
          omega
        simp [hfx, hne]
    have he2 : ∀ x ∈ e.filter (fun x => !(f x == m)), f x < m := by
      intro x hx
      have hx2 := List.mem_filter.mp hx
      have hlt : f x < m + 1 := he x hx2.1
      have hne : ¬ f x = m := by
        intro hc
        rw [hc] at hx2
        simp at hx2
      omega
    have hA : (List.range m).flatMap (fun i => e.filter (fun x => f x == i)) =
        (List.range m).flatMap
          (fun i => (e.filter (fun x => !(f x == m))).filter
            (fun x => f x == i)) :=
      flatMap_congr_of_mem hsub
    have hp1 := (ih _ he2).append_right (e.filter (fun x => f x == m))
    have hp2 : (e.filter (fun x => !(f x == m)) ++
        e.filter (fun x => f x == m)).Perm
        (e.filter (fun x => f x == m) ++
          e.filter (fun x => !(f x == m))) := List.perm_append_comm
    have hp3 := List.filter_append_perm (fun x => f x == m) e
    rw [hA]
    exact hp1.trans (hp2.trans hp3)

/-! ### `MapDataset.shard` / `MapDataset.filter` lemmas -/

theorem shard_contig_eq_slice {α : Type u} (ds : MapDataset α) (k i : Nat) :
    (ds.shard k i true).new_data =
      (ds.new_data.take (contigBound ds.len k (i + 1))).drop
        (contigBound ds.len k i) := by
  have h : contigBound ds.len k (i + 1) =
      (ds.len / k) * i + min i (ds.len % k) + ds.len / k +
        (if i < ds.len % k then 1 else 0) := by
    unfold contigBound
    generalize ds.len / k = d
    generalize ds.len % k = m
    rw [Nat.mul_succ]
    split <;> omega
  rw [h]
  rfl

theorem contigBound_mono (L k : Nat) :
    ∀ i, contigBound L k i ≤ contigBound L k (i + 1) := by
  intro i
  unfold contigBound
  generalize L / k = d
  generalize L % k = m
  rw [Nat.mul_succ]
  omega

theorem contigBound_zero (L k : Nat) : contigBound L k 0 = 0 := by
  simp [contigBound]

theorem contigBound_top (L k : Nat) (hk : 0 < k) : contigBound L k k = L := by
  unfold contigBound
  have h1 : L % k < k := Nat.mod_lt _ hk
  have h3 : min k (L % k) = L % k := by omega
  rw [h3, Nat.mul_comm, Nat.div_add_mod]

theorem shard_contig_concat {α : Type u} (ds : MapDataset α) (k : Nat)
    (hk : 0 < k) :
    (List.range k).flatMap (fun i => (ds.shard k i true).new_data) =
      ds.new_data := by
  have h1 : (List.range k).flatMap (fun i => (ds.shard k i true).new_data) =
      (List.range k).flatMap
        (fun i => (ds.new_data.take (contigBound ds.len k (i + 1))).drop
          (contigBound ds.len k i)) :=
    flatMap_congr_of_mem (fun i _ => shard_contig_eq_slice ds k i)
  rw [h1, slices_concat ds.new_data (contigBound ds.len k)
    (contigBound_mono ds.len k) (contigBound_zero ds.len k) k,
    contigBound_top ds.len k hk]
  exact List.take_length ds.new_data

theorem filter_par_new_data {α : Type u} (ds : MapDataset α) (fn : α → Bool)
    (k : Nat) (hk : 0 < k) :
    (ds.filter fn k).new_data = ds.new_data.filter fn := by
  have h0 : (ds.filter fn k).new_data =
      (List.range k).flatMap
        (fun rank => ((ds.shard k rank true).new_data).filter fn) := by
    unfold MapDataset.filter
    rw [if_pos hk]
    rfl
  rw [h0, ← filter_flatMap_comm, shard_contig_concat ds k hk]


theorem filter_frame {α : Type u} (ds : MapDataset α) (fn : α → Bool)
    (w : Nat) :
    (ds.filter fn w).data = ds.data
    ∧ (ds.filter fn w).transform_pipline = ds.transform_pipline
    ∧ (ds.filter fn w).label_list = ds.label_list
    ∧ (ds.filter fn w).vocab_info = ds.vocab_info := by
  unfold MapDataset.filter
  split <;> exact ⟨rfl, rfl, rfl, rfl⟩

theorem shard_frame {α : Type u} (ds : MapDataset α) (k i : Nat) (c : Bool) :
    (ds.shard k i c).data = ds.data
    ∧ (ds.shard k i c).transform_pipline = ds.transform_pipline
    ∧ (ds.shard k i c).label_list = ds.label_list
    ∧ (ds.shard k i c).vocab_info = ds.vocab_info := by
  unfold MapDataset.shard
  split <;> exact ⟨rfl, rfl, rfl, rfl⟩

/-! ### `pyGet` and `IterDataset.__iter__` lemmas -/

theorem pyGet_natCast {α : Type u} (l : List α) (i : Nat) :
    pyGet l (i : Int) = l.get? i := by
  unfold pyGet
  have h1 : ¬ ((i : Int) < 0) := by omega
  rw [if_neg h1, if_pos (by omega : (0 : Int) ≤ (i : Int)), Int.toNat_natCast]

theorem pyGet_eq_none_iff {α : Type u} (l : List α) (idx : Int) :
    pyGet l idx = Option.none ↔
      ((l.length : Int) ≤ idx ∨ idx < -(l.length : Int)) := by
  unfold pyGet
  by_cases hneg : idx < 0
  · rw [if_pos hneg]
    by_cases hge : (0 : Int) ≤ idx + l.length
    · rw [if_pos hge]
      constructor
      · intro hnone
        have := List.get?_eq_none.mp hnone
        omega
      · intro habs
        exact absurd habs (by omega)
    · rw [if_neg hge]
      constructor
      · intro _
        omega
      · intro _
        rfl
  · rw [if_neg hneg]
    rw [if_pos (by omega : (0 : Int) ≤ idx)]
    constructor
    · intro hnone
      have := List.get?_eq_none.mp hnone
      omega
    · intro h
      apply List.get?_eq_none.mpr
      omega

theorem pyGet_neg {α : Type u} (l : List α) (idx : Int)
    (h1 : -(l.length : Int) ≤ idx) (h2 : idx < 0) :
    pyGet l idx = l.get? ((l.length : Int) + idx).toNat := by
  unfold pyGet
  rw [if_pos h2, if_pos (by omega : (0 : Int) ≤ idx + l.length)]
  congr 1
  omega

theorem transformApply_nil {α : Type u} (ds : MapDataset α)
    (h : ds.transform_pipline = []) : ∀ x, ds.transformApply x = x := by
  intro x
  unfold MapDataset.transformApply
  rw [h]
  rfl

theorem getitem_eq_map {α : Type u} (ds : MapDataset α) (idx : Int) :
    ds.getitem idx = (pyGet ds.new_data idx).map ds.transformApply := by
  unfold MapDataset.getitem
  by_cases he : ds.transform_pipline.isEmpty
  · rw [if_pos he]
    have hnil : ds.transform_pipline = [] := List.isEmpty_iff.mp he
    cases hget : pyGet ds.new_data idx with
    | none => rfl
    | some a =>
      have h2 : ds.transformApply a = a := transformApply_nil ds hnil a
      simp [h2]
  · rw [if_neg he]

theorem iterFrom_of_empty_piplines {α : Type u} (env : Nat → PyVal → Bool)
    (ds : IterDataset α) (hf : ds.filter_pipline = [])
    (ht : ds.transform_pipline = []) :
    ∀ (xs : List α) (n : Nat),
      ds.iterFrom env xs n =
        ((List.enumFrom n xs).filter (fun p => ds.shard_filter p.1)).map
          Prod.snd := by
  intro xs
  induction xs with
  | nil =>
    intro n
    rfl
  | cons x xs ih =>
    intro n
    have hg : ds.iterGate env n = ds.shard_filter n := by
      unfold IterDataset.iterGate
      rw [hf]
      simp
    have htr : ds.transformOne x = x := by
      unfold IterDataset.transformOne
      rw [ht]
      rfl
    rw [List.enumFrom_cons]
    unfold IterDataset.iterFrom
    rw [hg, htr, List.filter_cons]
    cases hs : ds.shard_filter n with
    | false => simp [hs, ih]
    | true => simp [hs, ih]

/-- Two `MapDataset`s with the same fields are equal. -/
theorem mapDataset_eq_of_fields {α : Type u} {a b : MapDataset α}
    (h1 : a.data = b.data) (h2 : a.new_data = b.new_data)
    (h3 : a.transform_pipline = b.transform_pipline)
    (h4 : a.label_list = b.label_list) (h5 : a.vocab_info = b.vocab_info) :
    a = b := by
  cases a
  cases b
  simp_all

/-! ### Claim theorems -/

/-- C2: `MapDataset.shard` is a partition of `new_data`: with
`contiguous=true` (the `start`/`end` offsets `div*i + min(i, mod)`)
concatenating shards `0..num_shards-1` in order reproduces the stored
sequence exactly; with `contiguous=false` (striped, positions
`p % num_shards == i`) the shards together hold the original records
with multiplicity 1 (their concatenation is a permutation of the
original). -/
theorem mapDataset_shard_is_partition {α : Type u} (ds : MapDataset α)
    (k : Nat) (hk : 0 < k) :
    ((List.range k).flatMap (fun i => (ds.shard k i true).new_data) =
      ds.new_data)
    ∧ ((List.range k).flatMap
        (fun i => (ds.shard k i false).new_data)).Perm ds.new_data := by
  refine ⟨shard_contig_concat ds k hk, ?_⟩
  have h1 : (List.range k).flatMap (fun i => (ds.shard k i false).new_data) =
      ((List.range k).flatMap
        (fun i => ds.new_data.enum.filter (fun p => p.1 % k == i))).map
        Prod.snd :=
    (List.map_flatMap Prod.snd _ _).symm
  rw [h1]
  have h2 := stripes_perm k (fun p : Nat × α => p.1 % k) ds.new_data.enum
    (fun x _ => Nat.mod_lt _ hk)
  have h3 := h2.map Prod.snd
  rw [List.enum_map_snd] at h3
  exact h3

/-- Witness for C2: `new_data = [0,1,2,3,4]`, `num_shards = 2`. -/
theorem mapDataset_shard_is_partition_witness :
    ((List.range 2).flatMap
        (fun i => ((MapDataset.init [0, 1, 2, 3, 4] Option.none PyVal.none :
          MapDataset Nat).shard 2 i true).new_data) = [0, 1, 2, 3, 4])
    ∧ ((List.range 2).flatMap
        (fun i => ((MapDataset.init [0, 1, 2, 3, 4] Option.none PyVal.none :
          MapDataset Nat).shard 2 i false).new_data)).Perm [0, 1, 2, 3, 4] :=
  mapDataset_shard_is_partition
    (MapDataset.init [0, 1, 2, 3, 4] Option.none PyVal.none) 2 (by decide)

/-- C3: for every valid index, `MapDataset.__getitem__` equals the
transform pipeline folded left-to-right, in insertion order, over the
stored record at that index; with an empty pipeline it returns the
stored record unchanged. -/
theorem mapDataset_getitem_is_fold {α : Type u} (ds : MapDataset α) (i : Nat)
    (h : i < ds.new_data.length) :
    ds.getitem (i : Int) =
      some (ds.transform_pipline.foldl (fun d fn => fn d)
        (ds.new_data.get ⟨i, h⟩))
    ∧ (ds.transform_pipline = [] →
        ds.getitem (i : Int) = some (ds.new_data.get ⟨i, h⟩)) := by
  have hbase : ds.getitem (i : Int) =
      some (ds.transformApply (ds.new_data.get ⟨i, h⟩)) := by
    rw [getitem_eq_map, pyGet_natCast, List.get?_eq_get h]
    rfl
  constructor
  · exact hbase
  · intro hnil
    rw [hbase, transformApply_nil ds hnil]

/-- Witness for C3: two registered transforms on `[10, 20]`, index 1. -/
theorem mapDataset_getitem_is_fold_witness :
    ({ data := [10, 20], new_data := [10, 20],
       transform_pipline := [fun x => x + 1, fun x => x * 2],
       label_list := Option.none, vocab_info := PyVal.none } :
        MapDataset Nat).getitem (1 : Int) = some 42 := by
  have h := mapDataset_getitem_is_fold
    ({ data := [10, 20], new_data := [10, 20],
       transform_pipline := [fun x => x + 1, fun x => x * 2],
       label_list := Option.none, vocab_info := PyVal.none } : MapDataset Nat)
    1 (by decide)
  exact h.1.trans (by rfl)

/-- C4: `MapDataset.filter` with `num_workers = k > 0` — the code's
fork-join: contiguous-shard into `k` parts, filter each part on an
isolated copy, concatenate in shard order `0..k-1` — produces the same
dataset as `filter` with `num_workers = 0`; in particular the same
surviving records in the same relative order. -/
theorem mapDataset_filter_parallel_eq_sequential {α : Type u}
    (ds : MapDataset α) (fn : α → Bool) (k : Nat) (hk : 0 < k) :
    ds.filter fn k = ds.filter fn 0 := by
  apply mapDataset_eq_of_fields
  · exact (filter_frame ds fn k).1.trans (filter_frame ds fn 0).1.symm
  · rw [filter_par_new_data ds fn k hk]
    rfl
  · exact (filter_frame ds fn k).2.1.trans (filter_frame ds fn 0).2.1.symm
  · exact (filter_frame ds fn k).2.2.1.trans (filter_frame ds fn 0).2.2.1.symm
  · exact (filter_frame ds fn k).2.2.2.trans (filter_frame ds fn 0).2.2.2.symm

/-- Witness for C4: an odd-keeping predicate on `[1..5]`, 2 workers. -/
theorem mapDataset_filter_parallel_eq_sequential_witness :
    (MapDataset.init [1, 2, 3, 4, 5] Option.none PyVal.none :
        MapDataset Nat).filter (fun x => x % 2 == 1) 2 =
      (MapDataset.init [1, 2, 3, 4, 5] Option.none PyVal.none :
        MapDataset Nat).filter (fun x => x % 2 == 1) 0 :=
  mapDataset_filter_parallel_eq_sequential
    (MapDataset.init [1, 2, 3, 4, 5] Option.none PyVal.none)
    (fun x => x % 2 == 1) 2 (by decide)

/-- C9: `MapDataset.__getitem__(idx)` fails (OutOfRange/IndexError,
modelled as `none`) exactly when `idx ≥ len` or `idx < -len`; every
`idx` with `-len ≤ idx < 0` succeeds and returns the transformed record
at position `len + idx`. -/
theorem mapDataset_getitem_bounds {α : Type u} (ds : MapDataset α)
    (idx : Int) :
    (ds.getitem idx = Option.none ↔
      ((ds.len : Int) ≤ idx ∨ idx < -(ds.len : Int)))
    ∧ (-(ds.len : Int) ≤ idx → idx < 0 →
        ds.getitem idx =
          (ds.new_data.get? ((ds.len : Int) + idx).toNat).map
            ds.transformApply) := by
  constructor
  · rw [getitem_eq_map, Option.map_eq_none']
    exact pyGet_eq_none_iff ds.new_data idx
  · intro h1 h2
    rw [getitem_eq_map, pyGet_neg ds.new_data idx h1 h2]
    rfl

/-- Witness for C9: index `-1` into `[5, 6, 7]` yields the last record;
index `3` and index `-4` are out of range. -/
theorem mapDataset_getitem_bounds_witness :
    (MapDataset.init [5, 6, 7] Option.none PyVal.none :
        MapDataset Nat).getitem (-1 : Int) = some 7 := by
  have h := (mapDataset_getitem_bounds
    (MapDataset.init [5, 6, 7] Option.none PyVal.none : MapDataset Nat)
    (-1 : Int)).2 (by decide) (by decide)
  exact h.trans (by rfl)

/-- C10: `MapDataset.filter` applies its predicate to the stored raw
records — the result is `new_data.filter fn` over the raw `new_data`,
for every `num_workers` — and both `filter` and `shard` leave the
transform pipeline, `label_list` and `vocab_info` unchanged. -/
theorem mapDataset_filter_raw_and_frame {α : Type u} (ds : MapDataset α)
    (fn : α → Bool) (w k i : Nat) (c : Bool) :
    ((ds.filter fn w).new_data = ds.new_data.filter fn
      ∧ (ds.filter fn w).transform_pipline = ds.transform_pipline
      ∧ (ds.filter fn w).label_list = ds.label_list
      ∧ (ds.filter fn w).vocab_info = ds.vocab_info)
    ∧ ((ds.shard k i c).transform_pipline = ds.transform_pipline
      ∧ (ds.shard k i c).label_list = ds.label_list
      ∧ (ds.shard k i c).vocab_info = ds.vocab_info) := by
  refine ⟨⟨?_, (filter_frame ds fn w).2.1, (filter_frame ds fn w).2.2.1,
    (filter_frame ds fn w).2.2.2⟩,
    (shard_frame ds k i c).2.1, (shard_frame ds k i c).2.2.1,
    (shard_frame ds k i c).2.2.2⟩
  cases w with
  | zero => rfl
  | succ m => exact filter_par_new_data ds fn (m + 1) (Nat.succ_pos m)

/-- When the gate argument is truthy and more than one dataset is
collected, `read_datasets` returns them all in declaration order. -/
theorem readDatasets_of_many {D : Type u} (read : String → String → D)
    (getData : String → String) (splits : Option SplitsArg)
    (dataFiles : Option DataFilesArg)
    (h : (spTruthy splits || dfTruthy dataFiles) = true)
    (hlen : 1 < (datasetsOf read getData splits dataFiles).length) :
    readDatasets read getData splits dataFiles =
      Except.ok (ReadResult.many (datasetsOf read getData splits dataFiles)) := by
  unfold readDatasets
  split
  · dsimp only
    rw [if_pos hlen]
  · rename_i hc
    exact absurd h hc

/-- When the gate argument is truthy and exactly one dataset is
collected, `read_datasets` returns `datasets[0]` alone. -/
theorem readDatasets_of_one {D : Type u} (read : String → String → D)
    (getData : String → String) (splits : Option SplitsArg)
    (dataFiles : Option DataFilesArg) (d0 : D)
    (h : (spTruthy splits || dfTruthy dataFiles) = true)
    (hone : datasetsOf read getData splits dataFiles = [d0]) :
    readDatasets read getData splits dataFiles =
      Except.ok (ReadResult.one d0) := by
  unfold readDatasets
  split
  · dsimp only
    rw [hone]
    rfl
  · rename_i hc
    exact absurd h hc

/-- C1 (code bug): `IterDataset.__iter__` evaluates the registered
predicates on `self._filter_pipline` — the list of predicates itself —
instead of on the record, so a record on which every predicate is false
is still yielded.  Concretely: the source yields the single record `""`,
the registered predicate is Python truthiness (`bool`); `bool("")` is
`False`, so the record should be dropped, yet iteration yields it
because the predicate is called on the non-empty pipeline list (which is
truthy). -/
theorem iterDataset_filter_evaluated_on_pipeline :
    (((IterDataset.init [PyVal.str ""] Option.none PyVal.none).filter 0).iter
        (fun _ v => pyTruthy v) = [PyVal.str ""])
    ∧ pyTruthy (PyVal.str "") = false :=
  ⟨rfl, rfl⟩

/-- C5: after `IterDataset.shard(num_shards, index)` the installed
predicate passes exactly the zero-based source positions `p` with
`p % num_shards == index` (the counter advances for every record drawn
from the source): iterating with empty filter and transform pipelines
yields exactly the records at those positions; and a subsequent `shard`
call replaces — does not compose with — the previous shard predicate. -/
theorem iterDataset_shard_stripes {α : Type u} (env : Nat → PyVal → Bool)
    (ds : IterDataset α) (k i : Nat) (hf : ds.filter_pipline = [])
    (ht : ds.transform_pipline = []) :
    ((ds.shard k i).iter env =
      (ds.data.enum.filter (fun p => p.1 % k == i)).map Prod.snd)
    ∧ (∀ k2 i2, (ds.shard k i).shard k2 i2 = ds.shard k2 i2) := by
  constructor
  · exact iterFrom_of_empty_piplines env (ds.shard k i) hf ht ds.data 0
  · intro k2 i2
    rfl

/-- Witness for C5: ten source records, `shard(num_shards=2, index=0)`,
empty pipelines — iteration yields the records at positions 0,2,4,6,8. -/
theorem iterDataset_shard_stripes_witness :
    ((IterDataset.init (List.range 10) Option.none PyVal.none :
        IterDataset Nat).shard 2 0).iter (fun _ _ => true) =
      [0, 2, 4, 6, 8] := by
  have h := iterDataset_shard_stripes (fun _ _ => true)
    (IterDataset.init (List.range 10) Option.none PyVal.none :
      IterDataset Nat) 2 0 rfl rfl
  exact h.1.trans (by decide)

/-- C7: eager `read` of a zero-record source fails with the
EmptyDataset-class error; lazy `read` of the same source returns a
streaming dataset whose iteration yields nothing and raises no error. -/
theorem builder_read_empty_source (ll : Option (List PyVal)) (v : PyVal)
    (env : Nat → PyVal → Bool) :
    readEager ll v [] = Except.error "EmptyDataset"
    ∧ (readLazy ll v []).map (fun ds => ds.iter env) = Except.ok [] :=
  ⟨rfl, rfl⟩

/-- C8: `read_datasets` fails with an InvalidArgument-class error when
both arguments are absent; otherwise it returns the single dataset when
exactly one was produced, else the datasets in declaration order —
`data_files`-derived first (in the mapping's insertion order, e.g. the
`{train, dev}` mapping yields the pair in that order), followed by the
`splits`-derived datasets in splits order. -/
theorem readDatasets_spec {D : Type} (read : String → String → D)
    (getData : String → String) :
    (readDatasets read getData Option.none Option.none =
      Except.error "InvalidArgument")
    ∧ (∀ tfn dfn : String,
        readDatasets read getData Option.none
          (some (DataFilesArg.dict [("train", tfn), ("dev", dfn)])) =
        Except.ok (ReadResult.many [read tfn "train", read dfn "dev"]))
    ∧ (∀ fname : String, fname ≠ "" →
        readDatasets read getData Option.none
          (some (DataFilesArg.path fname)) =
        Except.ok (ReadResult.one (read fname "train")))
    ∧ (∀ (d : List (String × String)) (sp : List String),
        d ≠ [] → sp ≠ [] →
        readDatasets read getData (some (SplitsArg.splits sp))
          (some (DataFilesArg.dict d)) =
        Except.ok (ReadResult.many
          (d.map (fun q => read q.2 q.1) ++
            sp.map (fun t => read (getData t) t)))) := by
  refine ⟨rfl, ?_, ?_, ?_⟩
  · intro tfn dfn
    rfl
  · intro fname hf
    have h1 : (spTruthy Option.none ||
        dfTruthy (some (DataFilesArg.path fname))) = true := by
      simp [spTruthy, dfTruthy, hf]
    have hone : datasetsOf read getData Option.none
        (some (DataFilesArg.path fname)) = [read fname "train"] := by
      unfold datasetsOf
      have h2 : dfTruthy (some (DataFilesArg.path fname)) = true := by
        simp [dfTruthy, hf]
      rw [h2]
      rfl
    exact readDatasets_of_one read getData _ _ _ h1 hone
  · intro d sp hd hs
    obtain ⟨p, d2, rfl⟩ := List.exists_cons_of_ne_nil hd
    obtain ⟨s, sp2, rfl⟩ := List.exists_cons_of_ne_nil hs
    have h2 : datasetsOf read getData (some (SplitsArg.splits (s :: sp2)))
        (some (DataFilesArg.dict (p :: d2))) =
        (p :: d2).map (fun q => read q.2 q.1) ++
          (s :: sp2).map (fun t => read (getData t) t) := rfl
    have hlen : 1 < (datasetsOf read getData
        (some (SplitsArg.splits (s :: sp2)))
        (some (DataFilesArg.dict (p :: d2)))).length := by
      rw [h2, List.length_append]
      simp
      omega
    have h := readDatasets_of_many read getData
      (some (SplitsArg.splits (s :: sp2)))
      (some (DataFilesArg.dict (p :: d2))) rfl hlen
    rw [h, h2]

/-- Witness for C8: a single data file path produces a single dataset. -/
theorem readDatasets_spec_witness :
    readDatasets (fun f s => (f, s)) id Option.none
      (some (DataFilesArg.path "p.jsonl")) =
      Except.ok (ReadResult.one ("p.jsonl", "train")) :=
  (readDatasets_spec (fun f s => (f, s)) id).2.2.1 "p.jsonl" (by decide)

/-- When the detected label column of a record holds a truthy value, the
lazy per-record path rewrites it through `label_dict`. -/
theorem processExampleLazy_truthy (ll : List PyVal) (e : Example)
    (k : String) (v : PyVal) (hdet : detectLabelCol e = some k)
    (hlook : e.lookup k = some v) (htr : pyTruthy v = true) :
    processExampleLazy (some ll) e =
      (mapLabelValue ll v).map (exSet e k) := by
  unfold processExampleLazy
  rw [hdet]
  dsimp only
  rw [hlook]
  simp only [Option.getD_some]
  rw [if_pos htr]

/-- C6 counterexample: in eager (non-lazy) mode `DatasetBuilder.read`
gates the whole label conversion on the FIRST record's label value.
With `label_list = ["a","b","c"]` and source
`[{"label": ""}, {"label": "b"}]`, the second record's non-empty label
`"b"` is left unreplaced (both records pass through unchanged), though
the claim requires it to become the index 1. -/
theorem builder_read_label_first_record_gate_cex :
    ((readEager (some [PyVal.str "a", PyVal.str "b", PyVal.str "c"])
        PyVal.none
        [[("label", PyVal.str "")], [("label", PyVal.str "b")]]).map
      (fun ds => ds.new_data) =
      Except.ok [[("label", PyVal.str "")], [("label", PyVal.str "b")]])
    ∧ ([("label", PyVal.str "b")] : Example) ≠ [("label", PyVal.int 1)] := by
  constructor
  · rfl
  · simp

/-- C6 (amended): with a supplied `label_list`, the lazy per-record path
replaces a non-empty, non-null label value through `label_dict`: a
scalar label string becomes its 0-based index, a list value is mapped
element-wise, and a label string absent from `label_list` raises a
KeyError-class error (the claim's two concrete examples hold verbatim);
in eager (non-lazy) mode the conversion is applied only when the first
record's label value is non-empty/non-null — otherwise every record
passes through unchanged. -/
theorem builder_read_label_mapping :
    (processExampleLazy (some [PyVal.str "a", PyVal.str "b", PyVal.str "c"])
        [("label", PyVal.str "b")] = Except.ok [("label", PyVal.int 1)])
    ∧ (processExampleLazy (some [PyVal.str "a", PyVal.str "b", PyVal.str "c"])
        [("labels", PyVal.list [PyVal.str "a", PyVal.str "c"])] =
        Except.ok [("labels", PyVal.list [PyVal.int 0, PyVal.int 2])])
    ∧ (∀ (ll : List PyVal) (e : Example) (k s : String) (i : Nat),
        detectLabelCol e = some k → e.lookup k = some (PyVal.str s) →
        s ≠ "" → labelIndex ll (PyVal.str s) = some i →
        processExampleLazy (some ll) e = Except.ok (exSet e k (PyVal.int i)))
    ∧ (∀ (ll : List PyVal) (e : Example) (k s : String),
        detectLabelCol e = some k → e.lookup k = some (PyVal.str s) →
        s ≠ "" → labelIndex ll (PyVal.str s) = Option.none →
        processExampleLazy (some ll) e = Except.error "KeyError")
    ∧ (∀ (ll : List PyVal) (e : Example) (k : String) (xs ys : List PyVal),
        detectLabelCol e = some k → e.lookup k = some (PyVal.list xs) →
        xs ≠ [] → mapLabelList ll xs = Except.ok ys →
        processExampleLazy (some ll) e =
          Except.ok (exSet e k (PyVal.list ys)))
    ∧ (∀ (ll : List PyVal) (v : PyVal) (e0 : Example) (es : List Example)
        (k : String),
        detectLabelCol e0 = some k →
        pyTruthy ((e0.lookup k).getD PyVal.none) = false →
        readEager (some ll) v (e0 :: es) =
          Except.ok (MapDataset.init (e0 :: es) (some ll) v)) := by
  refine ⟨rfl, rfl, ?_, ?_, ?_, ?_⟩
  · intro ll e k s i hdet hlook hs hidx
    rw [processExampleLazy_truthy ll e k (PyVal.str s) hdet hlook
      (by simp [pyTruthy, hs])]
    have h1 : mapLabelValue ll (PyVal.str s) =
        mapLabelElem ll (PyVal.str s) := rfl
    rw [h1]
    unfold mapLabelElem
    rw [hidx]
    rfl
  · intro ll e k s hdet hlook hs hidx
    rw [processExampleLazy_truthy ll e k (PyVal.str s) hdet hlook
      (by simp [pyTruthy, hs])]
    have h1 : mapLabelValue ll (PyVal.str s) =
        mapLabelElem ll (PyVal.str s) := rfl
    rw [h1]
    unfold mapLabelElem
    rw [hidx]
    rfl
  · intro ll e k xs ys hdet hlook hxs hmap
    rw [processExampleLazy_truthy ll e k (PyVal.list xs) hdet hlook
      (by simp [pyTruthy, hxs])]
    have h1 : mapLabelValue ll (PyVal.list xs) =
        (mapLabelList ll xs).map PyVal.list := rfl
    rw [h1, hmap]
    rfl
  · intro ll v e0 es k hdet hfalse
    unfold readEager
    dsimp only
    rw [hdet]
    dsimp only
    rw [if_neg (by simp [hfalse])]

/-- Witness for C6: the scalar label `"y"` with `label_list = ["x","y"]`
is replaced by its index 1 on the lazy path. -/
theorem builder_read_label_mapping_witness :
    processExampleLazy (some [PyVal.str "x", PyVal.str "y"])
      [("label", PyVal.str "y")] = Except.ok [("label", PyVal.int 1)] := by
  have h := builder_read_label_mapping.2.2.1 [PyVal.str "x", PyVal.str "y"]
    [("label", PyVal.str "y")] "label" "y" 1 rfl rfl (by decide) rfl
  exact h.trans rfl
